import Mathlib

/-!
Shallow embedding (in Lean 4) of the multi-key API-call orchestration and the
sequential/parallel panel-generation pipeline of the COMIC-AI repository.

Sources embedded:
* `src/services/apiKeyManager.ts` — the round-robin key pool (`getNextKey`,
  `getTotalKeys`).
* `src/services/geminiService.ts` — `isRateLimitError`,
  `createPlaceholderSvgDataUrl`, the resilient executor `geminiApiCall`, and
  the catch wrapper of `generatePanelImage`.
* `src/unnamed/part_000` (the application component) — `handleGenerateStory`
  (sequential image stage, cancellation, parallel lettering merge),
  `handleRegeneratePanel` and `handleEditPanel`.

Network calls (`apiLogic`, `generatePanelImage`, `analyzePanelForLettering`,
`editPanelImage` bodies) are modelled as oracle functions returning
`Except JsError α`; the surrounding control flow is translated statement by
statement from the TypeScript.
-/

namespace Comic

/-! ### JavaScript string primitives used by the source -/

/-- Boolean prefix test on character lists (JS `String.prototype.startsWith`
analogue, used to decide substring containment). -/
def startsWithChars : List Char → List Char → Bool
  | [], _ => true
  | _ :: _, [] => false
  | a :: as, b :: bs => a == b && startsWithChars as bs

/-- Boolean substring containment on character lists. -/
def includesChars : List Char → List Char → Bool
  | pat, [] => startsWithChars pat []
  | pat, c :: rest => startsWithChars pat (c :: rest) || includesChars pat rest

/-- JS `s.includes(pat)`: `pat` occurs as a contiguous substring of `s`. -/
def jsIncludes (s pat : String) : Bool :=
  includesChars pat.data s.data

/-- JS truthiness of a nullable string (`null`/`undefined` and `""` are falsy). -/
def jsTruthyStr : Option String → Bool
  | none => false
  | some s => !(s == "")

/-! ### Errors thrown by the service layer

JS exceptions relevant to the embedded code are either the custom
`GeminiApiError` (with a `message` and a `userFriendlyMessage`) or a generic
`Error` with a `message`.  `Error.prototype.toString()` returns
`name + ": " + message`; `GeminiApiError` sets `name = 'GeminiApiError'`. -/

inductive JsError where
  /-- `new GeminiApiError(message, userFriendlyMessage)` from geminiService.ts. -/
  | gemini (message userFriendlyMessage : String)
  /-- a plain `new Error(message)`. -/
  | plain (message : String)
deriving DecidableEq, Repr

instance excDecEq {ε α : Type} [DecidableEq ε] [DecidableEq α] :
    DecidableEq (Except ε α)
  | .ok a, .ok b =>
    if h : a = b then .isTrue (congrArg Except.ok h)
    else .isFalse (fun hh => h (Except.ok.inj hh))
  | .error a, .error b =>
    if h : a = b then .isTrue (congrArg Except.error h)
    else .isFalse (fun hh => h (Except.error.inj hh))
  | .ok _, .error _ => .isFalse (fun hh => Except.noConfusion hh)
  | .error _, .ok _ => .isFalse (fun hh => Except.noConfusion hh)

/-- JS `error.toString()` for the two error shapes above. -/
def JsError.jsToString : JsError → String
  | .gemini m _ => "GeminiApiError: " ++ m
  | .plain m => "Error: " ++ m

/-- JS `String.prototype.toLowerCase` (character-wise; the embedded strings
are ASCII). -/
def jsToLowerCase (s : String) : String :=
  String.mk (s.data.map Char.toLower)

/-- `isRateLimitError` from geminiService.ts: case-insensitive substring match
of the stringified error against the three quota markers. -/
def isRateLimitError (error : JsError) : Bool :=
  let errorMessage := jsToLowerCase error.jsToString
  jsIncludes errorMessage "rate limit" ||
  jsIncludes errorMessage "quota" ||
  jsIncludes errorMessage "resource_exhausted"

/-! ### The key pool (apiKeyManager.ts) -/

/-- The module-level state of apiKeyManager.ts: the loaded key list and the
mutable round-robin cursor `currentKeyIndex`. -/
structure KeyPoolState where
  apiKeys : List String
  currentKeyIndex : Nat
deriving DecidableEq, Repr

/-- `getTotalKeys()` from apiKeyManager.ts. -/
def getTotalKeys (st : KeyPoolState) : Nat :=
  st.apiKeys.length

/-- `getNextKey()` from apiKeyManager.ts: return the key at the cursor with its
index, then advance the cursor by 1 modulo the pool size.  (JS out-of-range
indexing would give `undefined`; the module invariant keeps the cursor in
range, here the `getD` default is inert under that invariant.) -/
def getNextKey (st : KeyPoolState) : (String × Nat) × KeyPoolState :=
  let key := st.apiKeys.getD st.currentKeyIndex ""
  let index := st.currentKeyIndex
  ((key, index),
   { st with currentKeyIndex := (st.currentKeyIndex + 1) % st.apiKeys.length })

/-- `n` successive `getNextKey()` calls, collecting the returned indices. -/
def nextCalls : Nat → KeyPoolState → List Nat × KeyPoolState
  | 0, st => ([], st)
  | n + 1, st =>
    ((getNextKey st).1.2 :: (nextCalls n (getNextKey st).2).1,
     (nextCalls n (getNextKey st).2).2)

/-! ### The resilient executor `geminiApiCall` (geminiService.ts) -/

/-- The initial `lastError` of `geminiApiCall`. -/
def noKeysError : JsError :=
  .plain "No API keys are available or all have failed."

/-- The terminal error thrown when every key hit its quota: a `GeminiApiError`
built from two fixed strings (the last recorded error is only logged). -/
def allKeysRateLimitedError : JsError :=
  .gemini "All API keys have reached their rate limits."
    "All available API keys have reached their daily limit. Please try again tomorrow or add new keys."

/-- The `for` loop of `geminiApiCall`, with `fuel` remaining iterations.  The
operation `op` models the caller-supplied `apiLogic` closure applied to a
client built from the given key.  Alongside the result we record the trace of
`(key, index)` pairs actually attempted (one entry per invocation of `op`) and
the final pool state. -/
def geminiApiCallGo (op : String → Except JsError α) :
    Nat → JsError → KeyPoolState → Except JsError α × List (String × Nat) × KeyPoolState
  | 0, lastError, st =>
    (if isRateLimitError lastError then .error allKeysRateLimitedError
     else .error lastError, [], st)
  | fuel + 1, _, st =>
    let (kv, st') := getNextKey st
    match op kv.1 with
    | .ok result => (.ok result, [kv], st')
    | .error e =>
      if isRateLimitError e then
        let (res, trace, st'') := geminiApiCallGo op fuel e st'
        (res, kv :: trace, st'')
      else
        (.error e, [kv], st')

/-- `geminiApiCall` from geminiService.ts: try up to `getTotalKeys()` keys,
retrying on rate-limit-classified errors, failing fast otherwise, and throwing
`allKeysRateLimitedError` when every key was exhausted by quota errors. -/
def geminiApiCall (op : String → Except JsError α) (st : KeyPoolState) :
    Except JsError α × List (String × Nat) × KeyPoolState :=
  geminiApiCallGo op (getTotalKeys st) noKeysError st

/-! ### The placeholder image (geminiService.ts) -/

/-- The base64 alphabet used by the browser's `btoa`. -/
def base64Chars : List Char :=
  "ABCDEFGHIJKLMNOPQRSTUVWXYZabcdefghijklmnopqrstuvwxyz0123456789+/".data

/-- One 6-bit group to a base64 character. -/
def b64Char (n : Nat) : Char :=
  base64Chars.getD n '='

/-- Base64-encode a list of byte values (3 bytes to 4 characters, `=` pad). -/
def btoaGo : List Nat → List Char
  | a :: b :: c :: rest =>
    let n := a * 65536 + b * 256 + c
    b64Char (n / 262144) :: b64Char (n / 4096 % 64) ::
      b64Char (n / 64 % 64) :: b64Char (n % 64) :: btoaGo rest
  | [a, b] =>
    let n := a * 65536 + b * 256
    [b64Char (n / 262144), b64Char (n / 4096 % 64), b64Char (n / 64 % 64), '=']
  | [a] =>
    let n := a * 65536
    [b64Char (n / 262144), b64Char (n / 4096 % 64), '=', '=']
  | [] => []

/-- Browser `btoa`: base64 over the string's code units (the SVG below is pure
ASCII, so code units and bytes coincide). -/
def btoa (s : String) : String :=
  String.mk (btoaGo (s.data.map Char.toNat))

/-- The SVG template literal of `createPlaceholderSvgDataUrl`, with `text`
interpolated (braces and apostrophes of the source written as `\x7b`, `\x7d`,
`\x27` escapes). -/
def placeholderSvg (text : String) : String :=
  "\n    <svg width=\"512\" height=\"512\" viewBox=\"0 0 512 512\" xmlns=\"http://www.w3.org/2000/svg\" style=\"background-color:#4A5568;\">\n      <style>\n        .title \x7b fill: #FBBF24; font-size: 32px; font-family: \x27Bangers\x27, cursive, sans-serif; text-anchor: middle; \x7d\n        .text \x7b fill: #E2E8F0; font-size: 24px; font-family: \x27Inter\x27, sans-serif; text-anchor: middle; white-space: pre-wrap; \x7d\n      </style>\n      <text x=\"50%\" y=\"45%\" class=\"title\">GENERATION FAILED</text>\n      <text x=\"50%\" y=\"60%\" class=\"text\">"
    ++ text ++ "</text>\n    </svg>\n  "

/-- `createPlaceholderSvgDataUrl` from geminiService.ts. -/
def createPlaceholderSvgDataUrl (text : String) : String :=
  "data:image/svg+xml;base64," ++ btoa (placeholderSvg text)

/-! ### `generatePanelImage`'s catch wrapper (geminiService.ts)

The `try` body is `geminiApiCall` applied to the panel-image `apiLogic`
closure (network call + image-part extraction), modelled by the oracle `op`.
The `catch` substitutes a placeholder panel when the error is the
`GeminiApiError` whose `message` includes `"rate limits"`, re-throws other
`GeminiApiError`s, and wraps anything else. -/
def generatePanelImageSvc (op : String → Except JsError String) (st : KeyPoolState) :
    Except JsError String × List (String × Nat) × KeyPoolState :=
  match geminiApiCall op st with
  | (.ok r, trace, st') => (.ok r, trace, st')
  | (.error e, trace, st') =>
    match e with
    | .gemini message ufm =>
      if jsIncludes message "rate limits" then
        (.ok (createPlaceholderSvgDataUrl "API Limit Reached"), trace, st')
      else (.error (.gemini message ufm), trace, st')
    | .plain m =>
      (.error (.gemini m "An unexpected error occurred while generating the panel image."),
       trace, st')

/-! ### Data model (types.ts) -/

inductive Layout where
  | standard | wide | tall | splash
deriving DecidableEq, Repr

/-- `SFX` from types.ts. -/
structure SFX where
  text : String
  style : String
deriving DecidableEq, Repr

/-- One `{character, line}` dialogue entry of a `StoryPage`. -/
structure Dialogue where
  character : String
  line : String
deriving DecidableEq, Repr

inductive FontWeight where
  | normal | bold
deriving DecidableEq, Repr

inductive TextAlign where
  | left | center | right
deriving DecidableEq, Repr

inductive LetteringType where
  | dialogue | narration | thought | shout
deriving DecidableEq, Repr

/-- `LetteringElement` from types.ts (numeric percentage/size fields kept as
rationals; no arithmetic is performed on them by the embedded code). -/
structure LetteringElement where
  id : String
  type : LetteringType
  text : String
  x : Rat
  y : Rat
  width : Rat
  height : Rat
  fontWeight : FontWeight
  textAlign : TextAlign
  fontFamily : String
  fontSize : Rat
  color : String
  fillColor : String
  tail : Option (Rat × Rat)
deriving DecidableEq, Repr

/-- `StoryPage` from types.ts.  TS optional booleans are modelled as `Bool`
(`undefined` is falsy wherever the embedded code tests them); nullable fields
(`image`, `lettering`, `failureReason`) as `Option` (merging `null` and
`undefined`, which the embedded code only distinguishes by falsiness). -/
structure StoryPage where
  page : Int
  description : String
  narration : String
  dialogue : List Dialogue
  image : Option String
  isGenerating : Bool
  isLettering : Bool
  layout : Layout
  sfx : Option SFX
  lettering : Option (List LetteringElement)
  generationFailed : Bool
  failureReason : Option String
deriving DecidableEq, Repr

/-- Inert default used to translate JS array indexing (never reached when the
index is in range). -/
def dfltPage : StoryPage :=
  { page := 0, description := "", narration := "", dialogue := [], image := none,
    isGenerating := false, isLettering := false, layout := .standard, sfx := none,
    lettering := none, generationFailed := false, failureReason := none }

/-! ### Index-aware list helpers (JS `Array.prototype.map((p, idx) => ...)`
and `array[i] = ...`) -/

/-- Worker for `mapIdxL`, carrying the index of the head. -/
def mapIdxGo (f : Nat → α → β) : Nat → List α → List β
  | _, [] => []
  | n, a :: as => f n a :: mapIdxGo f (n + 1) as

/-- JS `array.map((element, index) => f index element)`. -/
def mapIdxL (f : Nat → α → α') (l : List α) : List α' :=
  mapIdxGo f 0 l

/-- JS `array[i] = f(array[i])` (in-place update of one slot; out-of-range
indices leave the list unchanged, which the embedded code never relies on). -/
def modifyIdx : List α → Nat → (α → α) → List α
  | [], _, _ => []
  | a :: as, 0, f => f a :: as
  | a :: as, n + 1, f => a :: modifyIdx as n f

/-! ### The generation pipeline (`handleGenerateStory` in the app component)

Oracle types: an image oracle receives exactly the run-dependent arguments of
`generatePanelImage` (panel description, sfx, layout, previous panel's image —
the character/scenery/style/story arguments are fixed for a run and absorbed
into the oracle), and a lettering oracle receives the arguments of
`analyzePanelForLettering` (image data, dialogue, narration). -/

/-- Image-generation backend call, as seen from the pipeline. -/
def ImgOracle : Type :=
  String → Option SFX → Layout → Option String → Except JsError String

/-- Lettering-analysis backend call, as seen from the pipeline. -/
def LetOracle : Type :=
  String → List Dialogue → String → Except JsError (List LetteringElement)

/-- The success update of the sequential image stage:
`{ ...p, image: panelImage, isGenerating: false, isLettering: true }`. -/
def panelSuccessUpdate (img : String) (p : StoryPage) : StoryPage :=
  { p with image := some img, isGenerating := false, isLettering := true }

/-- The failure update of the sequential image stage: `{ ...p,
isGenerating: false, isLettering: false, generationFailed: true,
failureReason: reason, image: null }`. -/
def panelFailUpdate (reason : String) (p : StoryPage) : StoryPage :=
  { p with isGenerating := false, isLettering := false, generationFailed := true,
           failureReason := some reason, image := none }

/-- The `failureReason` derived from a caught panel error:
`panelError instanceof GeminiApiError ? panelError.userFriendlyMessage
: "An unknown error occurred."`. -/
def panelErrorReason : JsError → String
  | .gemini _ ufm => ufm
  | .plain _ => "An unknown error occurred."

/-- The cancellation update: `{ ...p, isGenerating: false,
generationFailed: true, failureReason: "Generation was cancelled." }`. -/
def cancelUpdate (p : StoryPage) : StoryPage :=
  { p with isGenerating := false, generationFailed := true,
           failureReason := some "Generation was cancelled." }

/-- `pagesWithImages.map((p, idx) => (idx >= i ? cancelUpdate p : p))`. -/
def cancelMark (i : Nat) (pages : List StoryPage) : List StoryPage :=
  mapIdxL (fun idx p => if i ≤ idx then cancelUpdate p else p) pages

/-- The continuity reference:
`i > 0 ? pagesWithImages[i - 1].image : undefined`. -/
def prevImage (pages : List StoryPage) (i : Nat) : Option String :=
  if i = 0 then none else (pages[i - 1]?.getD dfltPage).image

/-- One iteration body of the sequential image stage (the `try`/`catch` around
`generatePanelImage` for panel `i`), without the cancellation check. -/
def runPanel (o : ImgOracle) (i : Nat) (pages : List StoryPage) : List StoryPage :=
  match o (pages[i]?.getD dfltPage).description (pages[i]?.getD dfltPage).sfx
      (pages[i]?.getD dfltPage).layout (prevImage pages i) with
  | .ok img => mapIdxL (fun idx p => if idx = i then panelSuccessUpdate img p else p) pages
  | .error e =>
    mapIdxL (fun idx p => if idx = i then panelFailUpdate (panelErrorReason e) p else p) pages

/-- The sequential image-stage `for` loop.  `cancel k` is the value read from
`generationCancelledRef.current` at the `k`-th poll of the flag (the loop
polls once at the top of each iteration).  Returns the resulting pages and
`some i` when the loop `break`s at iteration `i` because of cancellation. -/
def imageLoop (o : ImgOracle) (cancel : Nat → Bool) (total : Nat) :
    Nat → List StoryPage → List StoryPage × Option Nat
  | i, pages =>
    if _h : i < total then
      if cancel i then (cancelMark i pages, some i)
      else imageLoop o cancel total (i + 1) (runPanel o i pages)
    else (pages, none)
termination_by i _ => total - i

/-- Panels `j, j+1, ..., i-1` processed in order by `runPanel` (the
cancellation-free prefix of the image stage; proof artefact used to state what
the loop has produced when it is cancelled at iteration `i`). -/
def processRange (o : ImgOracle) : Nat → Nat → List StoryPage → List StoryPage
  | j, i, pages =>
    if _h : j < i then processRange o (j + 1) i (runPanel o j pages)
    else pages
termination_by j i _ => i - j

/-! ### The parallel lettering stage and its index-keyed merge -/

/-- The record resolved by one lettering promise:
`{ index: i, lettering: letteringData | null, error: null | error }`. -/
structure LetResult where
  index : Nat
  lettering : Option (List LetteringElement)
  error : Option JsError
deriving DecidableEq, Repr

/-- The dispatch condition `page.image && !page.generationFailed`. -/
def letteringEligible (p : StoryPage) : Bool :=
  jsTruthyStr p.image && !p.generationFailed

/-- The settled value of panel `i`'s lettering promise (success or caught
failure), for an eligible panel. -/
def letteringSettle (o : LetOracle) (i : Nat) (p : StoryPage) : LetResult :=
  match o (p.image.getD "") p.dialogue p.narration with
  | .ok letteringData => { index := i, lettering := some letteringData, error := none }
  | .error e => { index := i, lettering := none, error := some e }

/-- `pagesWithImages.map((page, i) => ...)`: the settled results of
`Promise.all(letteringPromises)` in dispatch order (`null` for panels that
were not dispatched). -/
def letteringPromises (o : LetOracle) (pages : List StoryPage) : List (Option LetResult) :=
  mapIdxL (fun i p => if letteringEligible p then some (letteringSettle o i p) else none) pages

/-- One merge step:
`finalPages[result.index] = { ...finalPages[result.index],
lettering: result.lettering, isLettering: false }` (skipped for `null`). -/
def applyLetResult (pages : List StoryPage) (r : Option LetResult) : List StoryPage :=
  match r with
  | none => pages
  | some res =>
    modifyIdx pages res.index
      (fun p => { p with lettering := res.lettering, isLettering := false })

/-- The `letteringResults.forEach(...)` merge over a settled-result list. -/
def mergeLettering (results : List (Option LetResult)) (pages : List StoryPage) :
    List StoryPage :=
  results.foldl applyLetResult pages

/-! ### `handleGenerateStory` (post-script stages) -/

/-- Observable outcome of one `handleGenerateStory` run: the final
`storyPages` and whether the parallel lettering stage ran at all. -/
structure PipelineResult where
  storyPages : List StoryPage
  letteringRan : Bool
deriving DecidableEq, Repr

/-- The initialisation of the freshly scripted pages:
`generatedPages.map(p => ({ ...p, isGenerating: true, lettering: null,
generationFailed: false }))`. -/
def initPages (generatedPages : List StoryPage) : List StoryPage :=
  generatedPages.map
    (fun p => { p with isGenerating := true, lettering := none, generationFailed := false })

/-- What happens after the sequential loop: one more poll of the cancellation
flag (`if (generationCancelledRef.current) return;`); if it reads true the
lettering stage is skipped, otherwise the lettering promises are dispatched,
awaited and merged. -/
def pipelinePost (lo : LetOracle) (cancel : Nat → Bool) (totalPanels : Nat)
    (loopOut : List StoryPage × Option Nat) : PipelineResult :=
  if cancel (match loopOut.2 with | some i => i + 1 | none => totalPanels) then
    { storyPages := loopOut.1, letteringRan := false }
  else
    { storyPages := mergeLettering (letteringPromises lo loopOut.1) loopOut.1,
      letteringRan := true }

/-- `handleGenerateStory` from the script stage's success onward: initialise
the freshly scripted pages, run the sequential image stage with cancellation
polling, re-check the cancellation flag (one more poll) and either return the
partial result or run the parallel lettering stage and merge it in. -/
def handleGenerateStory (o : ImgOracle) (lo : LetOracle) (cancel : Nat → Bool)
    (generatedPages : List StoryPage) : PipelineResult :=
  pipelinePost lo cancel generatedPages.length
    (imageLoop o cancel generatedPages.length 0 (initPages generatedPages))

/-! ### `handleRegeneratePanel` -/

/-- The `failureReason` used by `handleRegeneratePanel`'s catch. -/
def regenErrorReason : JsError → String
  | .gemini _ ufm => ufm
  | .plain _ => "An unknown error occurred during regeneration."

/-- The first published update of `handleRegeneratePanel`: the target panel
with `isGenerating: true, isLettering: false, image: null, lettering: null,
generationFailed: false, failureReason: undefined`. -/
def regenClearedPages (pages : List StoryPage) (pageIndex : Nat) : List StoryPage :=
  mapIdxL (fun i p =>
    if i = pageIndex then
      { p with isGenerating := true, isLettering := false, image := none,
               lettering := none, generationFailed := false, failureReason := none }
    else p) pages

/-- `handleRegeneratePanel`: clear the target panel, regenerate its image with
the preceding panel's image as continuity reference, then re-run lettering for
it.  The catch rebuilds from `currentProject.storyPages` — the stale closure
value, i.e. the pages as they were before the handler started. -/
def handleRegeneratePanel (o : ImgOracle) (lo : LetOracle)
    (pages : List StoryPage) (pageIndex : Nat) : List StoryPage :=
  match pages[pageIndex]? with
  | none => pages
  | some pageToRegen =>
    let pagesCleared := regenClearedPages pages pageIndex
    let prev := prevImage pages pageIndex
    match o pageToRegen.description pageToRegen.sfx pageToRegen.layout prev with
    | .error e =>
      mapIdxL (fun i p =>
        if i = pageIndex then
          { p with isGenerating := false, isLettering := false,
                   generationFailed := true, failureReason := some (regenErrorReason e) }
        else p) pages
    | .ok panelImage =>
      let pagesWithImage := mapIdxL (fun i p =>
        if i = pageIndex then
          { p with image := some panelImage, isGenerating := false, isLettering := true }
        else p) pagesCleared
      match lo panelImage pageToRegen.dialogue pageToRegen.narration with
      | .error e =>
        mapIdxL (fun i p =>
          if i = pageIndex then
            { p with isGenerating := false, isLettering := false,
                     generationFailed := true, failureReason := some (regenErrorReason e) }
          else p) pages
      | .ok letteringData =>
        mapIdxL (fun i p =>
          if i = pageIndex then
            { p with lettering := some letteringData, isLettering := false }
          else p) pagesWithImage

/-! ### `handleEditPanel` -/

/-- The `alert` text surfaced by `handleEditPanel`'s catch (the third source
branch is for non-`Error` throwables, which the error model does not
contain). -/
def editAlertText : JsError → String
  | .gemini _ ufm => "Panel Edit Failed: " ++ ufm
  | .plain m => "An unexpected error occurred: " ++ m

/-- `handleEditPanel`: guard on a present, truthy image; clear the panel's
lettering and mark it generating; run the guided edit and then a fresh
lettering pass; on either failure, surface the alert and clear the
in-progress flags on the state reached so far.  Returns the final pages and
the surfaced alert text, if any. -/
def handleEditPanel (eo : String → String → Except JsError String) (lo : LetOracle)
    (pages : List StoryPage) (pageIndex : Nat) (editPrompt : String) :
    List StoryPage × Option String :=
  match pages[pageIndex]? with
  | none => (pages, none)
  | some pageToEdit =>
    if !jsTruthyStr pageToEdit.image then (pages, none)
    else
      let pagesCleared := mapIdxL (fun i p =>
        if i = pageIndex then { p with isGenerating := true, lettering := none } else p) pages
      match eo (pageToEdit.image.getD "") editPrompt with
      | .error e =>
        (mapIdxL (fun i p =>
          if i = pageIndex then { p with isGenerating := false, isLettering := false }
          else p) pagesCleared,
         some (editAlertText e))
      | .ok editedImage =>
        let pagesWithImage := mapIdxL (fun i p =>
          if i = pageIndex then
            { p with image := some editedImage, isGenerating := false, isLettering := true }
          else p) pagesCleared
        match lo editedImage pageToEdit.dialogue pageToEdit.narration with
        | .error e =>
          (mapIdxL (fun i p =>
            if i = pageIndex then { p with isGenerating := false, isLettering := false }
            else p) pagesWithImage,
           some (editAlertText e))
        | .ok letteringData =>
          (mapIdxL (fun i p =>
            if i = pageIndex then { p with lettering := some letteringData, isLettering := false }
            else p) pagesWithImage,
           none)

/-! ## Lemmas about the list helpers -/

theorem mapIdxGo_elem (f : Nat → α → β) :
    ∀ (n : Nat) (l : List α) (k : Nat),
      (mapIdxGo f n l)[k]? = (l[k]?).map (f (n + k))
  | _, [], _ => by simp [mapIdxGo]
  | n, a :: as, 0 => by simp [mapIdxGo]
  | n, a :: as, k + 1 => by
    simpa [mapIdxGo, Nat.add_assoc, Nat.add_comm 1 k] using mapIdxGo_elem f (n + 1) as k

theorem mapIdxL_elem (f : Nat → α → α') (l : List α) (k : Nat) :
    (mapIdxL f l)[k]? = (l[k]?).map (f k) := by
  simpa using mapIdxGo_elem f 0 l k

theorem mapIdxGo_length (f : Nat → α → β) :
    ∀ (n : Nat) (l : List α), (mapIdxGo f n l).length = l.length
  | _, [] => rfl
  | n, a :: as => by simp [mapIdxGo, mapIdxGo_length f (n + 1) as]

theorem mapIdxL_length (f : Nat → α → α') (l : List α) :
    (mapIdxL f l).length = l.length :=
  mapIdxGo_length f 0 l

theorem modifyIdx_elem_self (f : α → α) :
    ∀ (l : List α) (i : Nat), (modifyIdx l i f)[i]? = (l[i]?).map f
  | [], _ => by simp [modifyIdx]
  | a :: as, 0 => by simp [modifyIdx]
  | a :: as, i + 1 => by simp [modifyIdx, modifyIdx_elem_self f as i]

theorem modifyIdx_elem_ne (f : α → α) :
    ∀ (l : List α) (i j : Nat), i ≠ j → (modifyIdx l i f)[j]? = l[j]?
  | [], _, _, _ => by simp [modifyIdx]
  | a :: as, 0, 0, h => absurd rfl h
  | a :: as, 0, j + 1, _ => by simp [modifyIdx]
  | a :: as, i + 1, 0, _ => by simp [modifyIdx]
  | a :: as, i + 1, j + 1, h => by
    simp [modifyIdx, modifyIdx_elem_ne f as i j (by omega)]

/-! ## Lemmas about the key pool -/

/-- Cursor arithmetic used by the round-robin proofs. -/
theorem shiftMod (L c j : Nat) : ((c + 1) % L + j) % L = (c + (j + 1)) % L := by
  rw [Nat.mod_add_mod]
  exact congrArg (· % L) (by omega)

/-- Complete description of `n` successive `getNextKey()` calls: the returned
indices walk the cursor round-robin, and the cursor advances by `n` modulo the
pool size. -/
theorem nextCalls_spec :
    ∀ (n : Nat) (keys : List String) (c : Nat), c < keys.length →
      nextCalls n ⟨keys, c⟩ =
        ((List.range n).map (fun j => (c + j) % keys.length),
         ⟨keys, (c + n) % keys.length⟩)
  | 0, keys, c, hc => by
    simp [nextCalls, Nat.mod_eq_of_lt hc]
  | n + 1, keys, c, hc => by
    have hL : 0 < keys.length := Nat.lt_of_le_of_lt (Nat.zero_le _) hc
    have hc' : (c + 1) % keys.length < keys.length := Nat.mod_lt _ hL
    have ih := nextCalls_spec n keys ((c + 1) % keys.length) hc'
    have hmap : (List.range n).map (fun j => ((c + 1) % keys.length + j) % keys.length)
        = (List.range n).map ((fun j => (c + j) % keys.length) ∘ Nat.succ) :=
      List.map_congr_left fun j _ => shiftMod keys.length c j
    show ((getNextKey ⟨keys, c⟩).1.2 :: (nextCalls n (getNextKey ⟨keys, c⟩).2).1,
          (nextCalls n (getNextKey ⟨keys, c⟩).2).2) = _
    rw [show (getNextKey ⟨keys, c⟩).2 = ⟨keys, (c + 1) % keys.length⟩ from rfl, ih]
    rw [List.range_succ_eq_map, List.map_cons, List.map_map]
    rw [hmap, show (getNextKey ⟨keys, c⟩).1.2 = c from rfl]
    simp [Nat.mod_eq_of_lt hc, shiftMod keys.length c n]

/-- Indices `(c + j) % L` for `j < L` are pairwise distinct. -/
theorem nodup_shift_mod (L c : Nat) :
    ((List.range L).map (fun j => (c + j) % L)).Nodup := by
  rcases Nat.eq_zero_or_pos L with hL | hL
  · subst hL; simp
  · refine List.Nodup.map_on ?_ (List.nodup_range L)
    intro x hx y hy hxy
    rw [List.mem_range] at hx hy
    have hmod : x % L = y % L := Nat.ModEq.add_left_cancel' c hxy
    rwa [Nat.mod_eq_of_lt hx, Nat.mod_eq_of_lt hy] at hmod

/-- C5 (proved): starting from the initial cursor `0` of apiKeyManager.ts, `N`
successive `getNextKey()` calls return exactly the indices `0, 1, ..., N-1`
(each index in `[0, N)` exactly once), the `(N+1)`-th call returns index `0`
again, each call returns the key at the current cursor together with that
cursor's index and advances the cursor by 1 modulo `N`, and the cursor always
stays in `[0, N)`. -/
theorem nextKey_roundRobin (keys : List String) (hN : 1 ≤ keys.length) :
    (nextCalls keys.length ⟨keys, 0⟩).1 = List.range keys.length ∧
    (nextCalls keys.length ⟨keys, 0⟩).1.Nodup ∧
    ((getNextKey (nextCalls keys.length ⟨keys, 0⟩).2).1).2 = 0 ∧
    (∀ st : KeyPoolState,
      (getNextKey st).1 = (st.apiKeys.getD st.currentKeyIndex "", st.currentKeyIndex) ∧
      (getNextKey st).2.currentKeyIndex = (st.currentKeyIndex + 1) % st.apiKeys.length) ∧
    (∀ n : Nat, (nextCalls n ⟨keys, 0⟩).2.currentKeyIndex < keys.length) := by
  have hL : 0 < keys.length := hN
  have hrange : (nextCalls keys.length ⟨keys, 0⟩).1 =
      (List.range keys.length).map (fun j => (0 + j) % keys.length) := by
    rw [nextCalls_spec keys.length keys 0 hL]
  have hcursor : ∀ n : Nat,
      (nextCalls n ⟨keys, 0⟩).2 = ⟨keys, (0 + n) % keys.length⟩ := by
    intro n; rw [nextCalls_spec n keys 0 hL]
  have hid : (List.range keys.length).map (fun j => (0 + j) % keys.length)
      = List.range keys.length := by
    refine ((List.map_congr_left fun j hj => ?_).trans (List.map_id _))
    rw [List.mem_range] at hj
    simpa using Nat.mod_eq_of_lt hj
  refine ⟨hrange.trans hid, ?_, ?_, fun st => ⟨rfl, rfl⟩, fun n => ?_⟩
  · rw [hrange]; exact nodup_shift_mod keys.length 0
  · rw [hcursor]; simp [getNextKey, Nat.zero_add, Nat.mod_self]
  · rw [hcursor]; exact Nat.mod_lt _ hL

/-- Witness for C5 at the concrete pool `["a", "b", "c"]`. -/
theorem nextKey_roundRobin_witness :
    1 ≤ (["a", "b", "c"] : List String).length ∧
    (nextCalls 3 ⟨["a", "b", "c"], 0⟩).1 = [0, 1, 2] ∧
    ((getNextKey (nextCalls 3 ⟨["a", "b", "c"], 0⟩).2).1).2 = 0 := by
  have h := nextKey_roundRobin ["a", "b", "c"] (by decide)
  exact ⟨by decide, h.1.trans (by decide), h.2.2.1⟩

/-! ## The resilient executor: fail-fast (C2) -/

/-- C2 (proved): when the first attempted credential's invocation fails with
an error that is not rate-limit-classified, `geminiApiCall` propagates that
exact error after exactly one invocation (a one-element attempt trace, holding
the first credential and its index) and tries no further credential,
regardless of the pool size. -/
theorem geminiApiCall_failFast (op : String → Except JsError α) (st : KeyPoolState)
    (e : JsError) (hc : st.currentKeyIndex < st.apiKeys.length)
    (hop : op (st.apiKeys.getD st.currentKeyIndex "") = .error e)
    (he : isRateLimitError e = false) :
    geminiApiCall op st =
      (.error e, [(st.apiKeys.getD st.currentKeyIndex "", st.currentKeyIndex)],
       { st with currentKeyIndex := (st.currentKeyIndex + 1) % st.apiKeys.length }) := by
  obtain ⟨m, hm⟩ : ∃ m, st.apiKeys.length = m + 1 :=
    ⟨st.apiKeys.length - 1, by omega⟩
  simp only [List.getD_eq_getElem?_getD] at hop
  simp [geminiApiCall, getTotalKeys, hm, geminiApiCallGo, getNextKey,
    List.getD_eq_getElem?_getD, hop, he]

/-- Witness for C2: a malformed-request-style error on key 0 of a 2-key pool
is propagated verbatim after one attempt. -/
theorem geminiApiCall_failFast_witness :
    geminiApiCall (α := Unit) (fun _ => .error (.plain "bad request"))
        ⟨["keyA", "keyB"], 0⟩ =
      (.error (.plain "bad request"), [("keyA", 0)], ⟨["keyA", "keyB"], 1⟩) := by
  have h := geminiApiCall_failFast (α := Unit) (fun _ => .error (.plain "bad request"))
    ⟨["keyA", "keyB"], 0⟩ (.plain "bad request") (by decide) rfl (by decide)
  simpa using h

/-! ## The resilient executor: quota exhaustion (C1, C10) -/

/-- A run of the executor loop in which every key yields a rate-limit error:
each remaining iteration attempts the key at the walking cursor and records it,
and the loop ends in the constant `allKeysRateLimitedError`. -/
theorem geminiApiCallGo_allRate (op : String → Except JsError α) (keys : List String)
    (hop : ∀ key ∈ keys, ∃ e, op key = .error e ∧ isRateLimitError e = true) :
    ∀ (n c : Nat) (lastErr : JsError), c < keys.length → isRateLimitError lastErr = true →
      geminiApiCallGo op n lastErr ⟨keys, c⟩ =
        (.error allKeysRateLimitedError,
         (List.range n).map (fun j =>
           (keys.getD ((c + j) % keys.length) "", (c + j) % keys.length)),
         ⟨keys, (c + n) % keys.length⟩)
  | 0, c, lastErr, hc, hlast => by
    simp [geminiApiCallGo, hlast, Nat.mod_eq_of_lt hc]
  | n + 1, c, lastErr, hc, _ => by
    have hL : 0 < keys.length := Nat.lt_of_le_of_lt (Nat.zero_le _) hc
    have hkmem : keys.getD c "" ∈ keys := by
      rw [List.getD_eq_getElem?_getD, List.getElem?_eq_getElem hc]
      exact List.getElem_mem hc
    obtain ⟨e, hope, hrate⟩ := hop _ hkmem
    have hc' : (c + 1) % keys.length < keys.length := Nat.mod_lt _ hL
    have ih := geminiApiCallGo_allRate op keys hop n ((c + 1) % keys.length) e hc' hrate
    simp only [List.getD_eq_getElem?_getD] at hope
    simp only [geminiApiCallGo, getNextKey, List.getD_eq_getElem?_getD, hope, hrate,
      if_true, ih]
    simp [List.range_succ_eq_map, List.map_map, Nat.mod_eq_of_lt hc, shiftMod,
      Function.comp]
    refine ⟨fun a _ => ?_, by rw [show c + 1 + n = c + (n + 1) from by omega]⟩
    rw [show c + 1 + a = c + (a + 1) from by omega]
    exact ⟨rfl, rfl⟩

/-- The full run of `geminiApiCall` when every key yields a rate-limit error
(shared between the exhaustion and the placeholder analyses). -/
theorem geminiApiCall_allRate_run (op : String → Except JsError α) (st : KeyPoolState)
    (hN : 1 ≤ st.apiKeys.length) (hc : st.currentKeyIndex < st.apiKeys.length)
    (hop : ∀ key ∈ st.apiKeys, ∃ e, op key = .error e ∧ isRateLimitError e = true) :
    geminiApiCall op st =
      (.error allKeysRateLimitedError,
       (List.range st.apiKeys.length).map (fun j =>
         (st.apiKeys.getD ((st.currentKeyIndex + j) % st.apiKeys.length) "",
          (st.currentKeyIndex + j) % st.apiKeys.length)),
       ⟨st.apiKeys,
        (st.currentKeyIndex + st.apiKeys.length) % st.apiKeys.length⟩) := by
  obtain ⟨keys, c⟩ := st
  simp only at hN hc hop ⊢
  have hkmem : keys.getD c "" ∈ keys := by
    rw [List.getD_eq_getElem?_getD, List.getElem?_eq_getElem hc]
    exact List.getElem_mem hc
  obtain ⟨m, hm⟩ : ∃ m, keys.length = m + 1 := ⟨keys.length - 1, by omega⟩
  obtain ⟨e0, hope0, hrate0⟩ := hop _ hkmem
  have hswap : geminiApiCall op ⟨keys, c⟩ = geminiApiCallGo op keys.length e0 ⟨keys, c⟩ := by
    show geminiApiCallGo op (getTotalKeys ⟨keys, c⟩) noKeysError ⟨keys, c⟩ = _
    show geminiApiCallGo op keys.length noKeysError ⟨keys, c⟩ = _
    rw [hm]
    rfl
  rw [hswap, geminiApiCallGo_allRate op keys hop keys.length c e0 hc hrate0]

/-- C1 (amended, proved): if every credential of a pool of size `N ≥ 1` yields
a rate-limit-classified error, then `geminiApiCall` invokes the operation
exactly `N` times, at `N` pairwise-distinct pool indices (the cursor walk
`c, c+1, ..., c+N-1` modulo `N`), and then fails with the distinguishable
all-quotas-exhausted `GeminiApiError` — a constant error value built from two
fixed strings, which does **not** wrap the last recorded error (the code only
logs it; see the counterexample theorem). -/
theorem geminiApiCall_allExhausted (op : String → Except JsError α) (st : KeyPoolState)
    (hN : 1 ≤ st.apiKeys.length) (hc : st.currentKeyIndex < st.apiKeys.length)
    (hop : ∀ key ∈ st.apiKeys, ∃ e, op key = .error e ∧ isRateLimitError e = true) :
    (geminiApiCall op st).1 = .error allKeysRateLimitedError ∧
    (geminiApiCall op st).2.1.length = st.apiKeys.length ∧
    ((geminiApiCall op st).2.1.map Prod.snd).Nodup ∧
    (geminiApiCall op st).2.1.map Prod.snd =
      (List.range st.apiKeys.length).map
        (fun j => (st.currentKeyIndex + j) % st.apiKeys.length) := by
  rw [geminiApiCall_allRate_run op st hN hc hop]
  refine ⟨rfl, by simp, ?_, by simp [List.map_map, Function.comp]⟩
  simp only [List.map_map]
  have : (Prod.snd ∘ fun j =>
      (st.apiKeys.getD ((st.currentKeyIndex + j) % st.apiKeys.length) "",
       (st.currentKeyIndex + j) % st.apiKeys.length))
      = fun j => (st.currentKeyIndex + j) % st.apiKeys.length := rfl
  rw [this]
  exact nodup_shift_mod st.apiKeys.length st.currentKeyIndex

/-- Witness for the amended C1 at a concrete 2-key pool where both keys hit
their quota. -/
theorem geminiApiCall_allExhausted_witness :
    (geminiApiCall (α := Unit) (fun _ => .error (.plain "quota hit"))
        ⟨["k1", "k2"], 0⟩).1 = .error allKeysRateLimitedError ∧
    (geminiApiCall (α := Unit) (fun _ => .error (.plain "quota hit"))
        ⟨["k1", "k2"], 0⟩).2.1.length = 2 ∧
    ((geminiApiCall (α := Unit) (fun _ => .error (.plain "quota hit"))
        ⟨["k1", "k2"], 0⟩).2.1.map Prod.snd).Nodup := by
  have h := geminiApiCall_allExhausted (α := Unit) (fun _ => .error (.plain "quota hit"))
    ⟨["k1", "k2"], 0⟩ (by decide) (by decide)
    (fun _ _ => ⟨.plain "quota hit", rfl, by decide⟩)
  exact ⟨h.1, h.2.1, h.2.2.1⟩

/-- C1 counterexample to the "wrapping the last recorded error" part of the
claim: on a 1-key pool where the only operation error is the rate-limited
`quota FOO` (resp. `quota BAR`), `geminiApiCall` fails with the *same*
constant `GeminiApiError` in both runs; that error mentions neither recorded
message in either of its fields and is not the recorded error itself, so the
terminal failure does not wrap the last recorded error. -/
theorem geminiApiCall_noWrap_counterexample :
    (geminiApiCall (α := Unit) (fun _ => .error (.plain "quota FOO"))
        ⟨["keyA"], 0⟩).1 = .error allKeysRateLimitedError ∧
    (geminiApiCall (α := Unit) (fun _ => .error (.plain "quota BAR"))
        ⟨["keyA"], 0⟩).1 =
      (geminiApiCall (α := Unit) (fun _ => .error (.plain "quota FOO"))
        ⟨["keyA"], 0⟩).1 ∧
    JsError.plain "quota FOO" ≠ JsError.plain "quota BAR" ∧
    jsIncludes "All API keys have reached their rate limits." "FOO" = false ∧
    jsIncludes "All available API keys have reached their daily limit. Please try again tomorrow or add new keys." "FOO" = false ∧
    (geminiApiCall (α := Unit) (fun _ => .error (.plain "quota FOO"))
        ⟨["keyA"], 0⟩).1 ≠ .error (.plain "quota FOO") := by
  decide

/-! ## The placeholder is a real (non-empty, hence JS-truthy) data URL -/

theorem stringAppend_ne_empty (s t : String) (hs : s ≠ "") : s ++ t ≠ "" := by
  intro h
  apply hs
  apply String.ext
  have h2 : s.data ++ t.data = [] := by
    rw [← String.data_append]; exact congrArg String.data h
  exact (List.append_eq_nil.mp h2).1

theorem createPlaceholderSvgDataUrl_ne_empty (text : String) :
    createPlaceholderSvgDataUrl text ≠ "" :=
  stringAppend_ne_empty _ _ (by decide)

theorem jsTruthyStr_of_ne (s : String) (h : s ≠ "") : jsTruthyStr (some s) = true := by
  simp [jsTruthyStr, h]

/-! ## Lemmas about one sequential-stage iteration (`runPanel`) -/

theorem runPanel_length (o : ImgOracle) (i : Nat) (pages : List StoryPage) :
    (runPanel o i pages).length = pages.length := by
  unfold runPanel
  split <;> simp [mapIdxL_length]

theorem runPanel_elem_ne (o : ImgOracle) (i : Nat) (pages : List StoryPage) (j : Nat)
    (h : j ≠ i) : (runPanel o i pages)[j]? = pages[j]? := by
  unfold runPanel
  split <;> simp [mapIdxL_elem, h]

theorem runPanel_elem_self (o : ImgOracle) (i : Nat) (pages : List StoryPage)
    (p : StoryPage) (hp : pages[i]? = some p) :
    (runPanel o i pages)[i]? =
      some (match o p.description p.sfx p.layout (prevImage pages i) with
            | .ok img => panelSuccessUpdate img p
            | .error e => panelFailUpdate (panelErrorReason e) p) := by
  unfold runPanel
  simp only [hp, Option.getD_some]
  cases ho : o p.description p.sfx p.layout (prevImage pages i) <;>
    simp [ho, mapIdxL_elem, hp, panelSuccessUpdate, panelFailUpdate]

/-- C10 (proved): when every credential yields a rate-limit error during a
panel-image call, `generatePanelImage` does not propagate the exhaustion
error: its catch recognises the `GeminiApiError` whose message includes
`"rate limits"` and returns the placeholder SVG data URL instead.  The
sequential image stage therefore records that panel as a success — image set
to the placeholder, `isGenerating := false`, `isLettering := true`,
`generationFailed` left `false` — and the panel satisfies the lettering
dispatch condition, so lettering is attempted on the placeholder. -/
theorem generatePanelImage_placeholderOnExhaustion
    (op : String → Except JsError String) (st : KeyPoolState)
    (hN : 1 ≤ st.apiKeys.length) (hc : st.currentKeyIndex < st.apiKeys.length)
    (hop : ∀ key ∈ st.apiKeys, ∃ e, op key = .error e ∧ isRateLimitError e = true) :
    (generatePanelImageSvc op st).1 =
      .ok (createPlaceholderSvgDataUrl "API Limit Reached") ∧
    ∀ (pages : List StoryPage) (i : Nat) (p : StoryPage),
      pages[i]? = some p → p.generationFailed = false →
      (runPanel (fun _ _ _ _ => (generatePanelImageSvc op st).1) i pages)[i]? =
        some { p with image := some (createPlaceholderSvgDataUrl "API Limit Reached"),
                      isGenerating := false, isLettering := true } ∧
      letteringEligible
        { p with image := some (createPlaceholderSvgDataUrl "API Limit Reached"),
                 isGenerating := false, isLettering := true } = true := by
  have hrun := geminiApiCall_allRate_run op st hN hc hop
  have h1 : (generatePanelImageSvc op st).1 =
      .ok (createPlaceholderSvgDataUrl "API Limit Reached") := by
    unfold generatePanelImageSvc
    rw [hrun]
    simp only [allKeysRateLimitedError]
    rw [if_pos (by decide)]
  refine ⟨h1, fun pages i p hp hgf => ⟨?_, ?_⟩⟩
  · rw [runPanel_elem_self (fun _ _ _ _ => (generatePanelImageSvc op st).1) i pages p hp]
    rw [h1]
    rfl
  · simp [letteringEligible, hgf,
      jsTruthyStr_of_ne _ (createPlaceholderSvgDataUrl_ne_empty "API Limit Reached")]

/-- Witness for C10 at a one-key pool whose single call hits its quota, with a
one-panel page list. -/
theorem generatePanelImage_placeholderOnExhaustion_witness :
    (generatePanelImageSvc (fun _ => .error (.plain "quota hit")) ⟨["k1"], 0⟩).1 =
      .ok (createPlaceholderSvgDataUrl "API Limit Reached") ∧
    (runPanel
        (fun _ _ _ _ =>
          (generatePanelImageSvc (fun _ => .error (.plain "quota hit")) ⟨["k1"], 0⟩).1)
        0 [dfltPage])[0]? =
      some { dfltPage with
             image := some (createPlaceholderSvgDataUrl "API Limit Reached"),
             isGenerating := false, isLettering := true } := by
  have h := generatePanelImage_placeholderOnExhaustion
    (fun _ => .error (.plain "quota hit")) ⟨["k1"], 0⟩ (by decide) (by decide)
    (fun _ _ => ⟨.plain "quota hit", rfl, by decide⟩)
  exact ⟨h.1, (h.2 [dfltPage] 0 dfltPage rfl rfl).1⟩

/-! ## Lemmas about the sequential image-stage loop -/

theorem imageLoop_cancelAt (o : ImgOracle) (cancel : Nat → Bool) (total i : Nat)
    (pages : List StoryPage) (hi : i < total) (hci : cancel i = true) :
    imageLoop o cancel total i pages = (cancelMark i pages, some i) := by
  rw [imageLoop]
  simp [hi, hci]

theorem imageLoop_step (o : ImgOracle) (cancel : Nat → Bool) (total i : Nat)
    (pages : List StoryPage) (hi : i < total) (hci : cancel i = false) :
    imageLoop o cancel total i pages =
      imageLoop o cancel total (i + 1) (runPanel o i pages) := by
  rw [imageLoop]
  simp [hi, hci]

theorem processRange_stop (o : ImgOracle) (j i : Nat) (pages : List StoryPage)
    (h : ¬ j < i) : processRange o j i pages = pages := by
  rw [processRange]
  simp [h]

theorem processRange_step (o : ImgOracle) (j i : Nat) (pages : List StoryPage)
    (h : j < i) :
    processRange o j i pages = processRange o (j + 1) i (runPanel o j pages) := by
  rw [processRange]
  simp [h]

theorem processRange_length (o : ImgOracle) (j i : Nat) (pages : List StoryPage) :
    (processRange o j i pages).length = pages.length := by
  have H : ∀ (d j : Nat) (pages : List StoryPage), i - j = d →
      (processRange o j i pages).length = pages.length := by
    intro d
    induction d with
    | zero =>
      intro j pages hd
      rw [processRange_stop o j i pages (by omega)]
    | succ d ih =>
      intro j pages hd
      rw [processRange_step o j i pages (by omega), ih (j + 1) _ (by omega)]
      exact runPanel_length o j pages
  exact H (i - j) j pages rfl

theorem processRange_elem_outside (o : ImgOracle) (i : Nat) :
    ∀ (j : Nat) (pages : List StoryPage) (k : Nat), k < j ∨ i ≤ k →
      (processRange o j i pages)[k]? = pages[k]? := by
  intro j pages k hk
  have H : ∀ (d j : Nat) (pages : List StoryPage), i - j = d → (k < j ∨ i ≤ k) →
      (processRange o j i pages)[k]? = pages[k]? := by
    intro d
    induction d with
    | zero =>
      intro j pages hd _
      rw [processRange_stop o j i pages (by omega)]
    | succ d ih =>
      intro j pages hd hk
      have hj : j < i := by omega
      rw [processRange_step o j i pages hj, ih (j + 1) _ (by omega) (by omega)]
      exact runPanel_elem_ne o j pages k (by omega)
  exact H (i - j) j pages rfl hk

theorem processRange_split (o : ImgOracle) (j m i : Nat) (pages : List StoryPage)
    (hjm : j ≤ m) (hmi : m ≤ i) :
    processRange o j i pages = processRange o m i (processRange o j m pages) := by
  have H : ∀ (d j : Nat) (pages : List StoryPage), m - j = d → j ≤ m →
      processRange o j i pages = processRange o m i (processRange o j m pages) := by
    intro d
    induction d with
    | zero =>
      intro j pages hd hjm'
      have : m = j := by omega
      subst this
      rw [processRange_stop o m m pages (by omega)]
    | succ d ih =>
      intro j pages hd hjm'
      have hj : j < m := by omega
      rw [processRange_step o j i pages (by omega),
        processRange_step o j m pages hj]
      exact ih (j + 1) _ (by omega) (by omega)
  exact H (m - j) j pages rfl hjm

theorem processRange_elem_at (o : ImgOracle) (j i k : Nat) (pages : List StoryPage)
    (hjk : j ≤ k) (hki : k < i) :
    (processRange o j i pages)[k]? =
      (runPanel o k (processRange o j k pages))[k]? := by
  rw [processRange_split o j k i pages hjk (by omega)]
  rw [processRange_split o k (k + 1) i (processRange o j k pages) (by omega) (by omega)]
  rw [processRange_elem_outside o i (k + 1) _ k (Or.inl (by omega))]
  rw [processRange_step o k (k + 1) _ (by omega),
    processRange_stop o (k + 1) (k + 1) _ (by omega)]

/-- Under a flag that is unset for the first `i` polls and set from poll `i`
on, the loop processes panels `0..i-1` normally, and at iteration `i` marks
every panel from `i` on as cancelled and breaks. -/
theorem imageLoop_runsTo (o : ImgOracle) (cancel : Nat → Bool) (total i : Nat)
    (hi : i < total) (hct : cancel i = true)
    (hbefore : ∀ k, k < i → cancel k = false) :
    ∀ (j : Nat) (pages : List StoryPage), j ≤ i →
      imageLoop o cancel total j pages =
        (cancelMark i (processRange o j i pages), some i) := by
  have H : ∀ (d j : Nat) (pages : List StoryPage), i - j = d → j ≤ i →
      imageLoop o cancel total j pages =
        (cancelMark i (processRange o j i pages), some i) := by
    intro d
    induction d with
    | zero =>
      intro j pages hd hji
      have : j = i := by omega
      subst this
      rw [imageLoop_cancelAt o cancel total j pages hi hct,
        processRange_stop o j j pages (by omega)]
    | succ d ih =>
      intro j pages hd hji
      have hj : j < i := by omega
      rw [imageLoop_step o cancel total j pages (by omega) (hbefore j hj),
        processRange_step o j i pages hj]
      exact ih (j + 1) _ (by omega) (by omega)
  intro j pages hji
  exact H (i - j) j pages rfl hji

theorem cancelMark_elem (i : Nat) (pages : List StoryPage) (k : Nat) :
    (cancelMark i pages)[k]? =
      (pages[k]?).map (fun p => if i ≤ k then cancelUpdate p else p) := by
  simp [cancelMark, mapIdxL_elem]


/-- C3 (proved): if the cancellation flag is unset for the polls before
iteration `i` and set from iteration `i`'s poll on (i.e. it was raised after
panel `i-1`'s image completed and before panel `i`'s iteration began), and the
image backend succeeds on the panels actually attempted, then the pipeline
marks every panel with index `≥ i` as `generationFailed := true` with the
cancellation failure reason and `isGenerating := false`, leaves every earlier
panel exactly as the image stage produced it (with its generated image and
`isLettering := true`), stops the sequential loop at iteration `i`, and never
runs the parallel lettering stage. -/
theorem handleGenerateStory_cancelled (o : ImgOracle) (lo : LetOracle)
    (cancel : Nat → Bool) (generatedPages : List StoryPage) (i : Nat)
    (hi : i < generatedPages.length)
    (hbefore : ∀ k, k < i → cancel k = false)
    (hafter : ∀ k, i ≤ k → cancel k = true)
    (hok : ∀ d s l pv, ∃ img, o d s l pv = .ok img) :
    (handleGenerateStory o lo cancel generatedPages).letteringRan = false ∧
    (handleGenerateStory o lo cancel generatedPages).storyPages =
      cancelMark i (processRange o 0 i (initPages generatedPages)) ∧
    (∀ k, i ≤ k → k < generatedPages.length →
      ∃ q, (handleGenerateStory o lo cancel generatedPages).storyPages[k]? = some q ∧
        q.generationFailed = true ∧
        q.failureReason = some "Generation was cancelled." ∧
        q.isGenerating = false) ∧
    (∀ k, k < i →
      (handleGenerateStory o lo cancel generatedPages).storyPages[k]? =
        (processRange o 0 i (initPages generatedPages))[k]? ∧
      ∃ q, (handleGenerateStory o lo cancel generatedPages).storyPages[k]? = some q ∧
        q.image.isSome = true ∧ q.isLettering = true) := by
  have hloop : imageLoop o cancel generatedPages.length 0 (initPages generatedPages) =
      (cancelMark i (processRange o 0 i (initPages generatedPages)), some i) :=
    imageLoop_runsTo o cancel generatedPages.length i hi (hafter i le_rfl) hbefore
      0 (initPages generatedPages) (by omega)
  have hres : handleGenerateStory o lo cancel generatedPages =
      { storyPages := cancelMark i (processRange o 0 i (initPages generatedPages)),
        letteringRan := false } := by
    unfold handleGenerateStory
    rw [hloop]
    unfold pipelinePost
    simp [hafter (i + 1) (by omega)]
  have hlen : (initPages generatedPages).length = generatedPages.length :=
    List.length_map _ _
  refine ⟨by rw [hres], by rw [hres], fun k hik hk => ?_, fun k hk => ?_⟩
  · rw [hres]
    have hmid : (processRange o 0 i (initPages generatedPages))[k]? =
        (initPages generatedPages)[k]? :=
      processRange_elem_outside o i 0 (initPages generatedPages) k (Or.inr hik)
    have hg : generatedPages[k]? = some generatedPages[k] :=
      List.getElem?_eq_getElem hk
    refine ⟨cancelUpdate { (generatedPages[k]) with isGenerating := true, lettering := none, generationFailed := false }, ?_, rfl, rfl, rfl⟩
    rw [cancelMark_elem, hmid]
    unfold initPages
    rw [List.getElem?_map, hg]
    simp [hik]
  · have hout : ¬ i ≤ k := by omega
    constructor
    · rw [hres, cancelMark_elem]
      cases hmk : (processRange o 0 i (initPages generatedPages))[k]? <;>
        simp [hout, hmk]
    · rw [hres]
      have hk2 : k < (processRange o 0 k (initPages generatedPages)).length := by
        rw [processRange_length, hlen]; omega
      obtain ⟨pk, hs⟩ :
          ∃ pk, (processRange o 0 k (initPages generatedPages))[k]? = some pk :=
        ⟨_, List.getElem?_eq_getElem hk2⟩
      obtain ⟨img, himg⟩ := hok pk.description pk.sfx pk.layout
        (prevImage (processRange o 0 k (initPages generatedPages)) k)
      have hmid : (processRange o 0 i (initPages generatedPages))[k]? =
          some (panelSuccessUpdate img pk) := by
        rw [processRange_elem_at o 0 i k (initPages generatedPages) (by omega) hk,
          runPanel_elem_self o k _ pk hs, himg]
      refine ⟨panelSuccessUpdate img pk, ?_, rfl, rfl⟩
      rw [cancelMark_elem, hmid]
      simp [hout]

/-- Witness for C3: three panels, flag raised from iteration 1's poll on;
panel 2 (and 1) are marked cancelled, the lettering stage is skipped. -/
theorem handleGenerateStory_cancelled_witness :
    (handleGenerateStory (fun _ _ _ _ => .ok "IMG") (fun _ _ _ => .ok [])
        (fun k => decide (1 ≤ k)) [dfltPage, dfltPage, dfltPage]).letteringRan = false ∧
    (∃ q, (handleGenerateStory (fun _ _ _ _ => .ok "IMG") (fun _ _ _ => .ok [])
        (fun k => decide (1 ≤ k)) [dfltPage, dfltPage, dfltPage]).storyPages[2]? = some q ∧
      q.generationFailed = true ∧
      q.failureReason = some "Generation was cancelled." ∧
      q.isGenerating = false) ∧
    (∃ q, (handleGenerateStory (fun _ _ _ _ => .ok "IMG") (fun _ _ _ => .ok [])
        (fun k => decide (1 ≤ k)) [dfltPage, dfltPage, dfltPage]).storyPages[0]? = some q ∧
      q.image.isSome = true ∧ q.isLettering = true) := by
  have h := handleGenerateStory_cancelled (fun _ _ _ _ => .ok "IMG")
    (fun _ _ _ => .ok []) (fun k => decide (1 ≤ k)) [dfltPage, dfltPage, dfltPage] 1
    (by decide)
    (fun k hk => by
      have h0 : k = 0 := by omega
      subst h0
      decide)
    (fun k hk => by simp [hk])
    (fun d s l pv => ⟨"IMG", rfl⟩)
  exact ⟨h.1, h.2.2.1 2 (by omega) (by decide), (h.2.2.2 0 (by omega)).2⟩

/-- C6 (proved): in the sequential image stage, if generating panel `i`'s
image throws (and cancellation was not observed at iteration `i`'s poll),
then panel `i` alone is updated — `isGenerating := false`,
`isLettering := false`, `generationFailed := true`, a human-readable
`failureReason` derived from the error, `image := none` — every other panel is
unchanged by that step, and the loop continues with panel `i + 1` instead of
aborting the chapter. -/
theorem imageLoop_panelFailureIsolated (o : ImgOracle) (cancel : Nat → Bool)
    (total i : Nat) (pages : List StoryPage) (p : StoryPage) (e : JsError)
    (hi : i < total) (hc : cancel i = false)
    (hp : pages[i]? = some p)
    (herr : o p.description p.sfx p.layout (prevImage pages i) = .error e) :
    imageLoop o cancel total i pages =
      imageLoop o cancel total (i + 1) (runPanel o i pages) ∧
    (runPanel o i pages)[i]? =
      some { p with isGenerating := false, isLettering := false, generationFailed := true, failureReason := some (panelErrorReason e), image := none } ∧
    (∀ j, j ≠ i → (runPanel o i pages)[j]? = pages[j]?) := by
  refine ⟨imageLoop_step o cancel total i pages hi hc, ?_,
    fun j hj => runPanel_elem_ne o i pages j hj⟩
  rw [runPanel_elem_self o i pages p hp, herr]
  rfl

/-- Witness for C6: a two-panel chapter whose first panel's image call fails
with a `GeminiApiError`; panel 0 records the failure, panel 1 is untouched by
that step. -/
theorem imageLoop_panelFailureIsolated_witness :
    (runPanel (fun _ _ _ _ => .error (.gemini "boom" "Oops")) 0
        [dfltPage, dfltPage])[0]? =
      some { dfltPage with isGenerating := false, isLettering := false, generationFailed := true, failureReason := some "Oops", image := none } ∧
    (runPanel (fun _ _ _ _ => .error (.gemini "boom" "Oops")) 0
        [dfltPage, dfltPage])[1]? = some dfltPage := by
  have h := imageLoop_panelFailureIsolated
    (fun _ _ _ _ => .error (.gemini "boom" "Oops")) (fun _ => false) 2 0
    [dfltPage, dfltPage] dfltPage (.gemini "boom" "Oops")
    (by decide) rfl rfl rfl
  exact ⟨h.2.1, (h.2.2 1 (by omega)).trans rfl⟩

/-! ## Lemmas about the index-keyed lettering merge -/

/-- The unique settled result with index `k` in a result list, if any (proof
artefact for the merge analysis). -/
def findRes : List (Option LetResult) → Nat → Option LetResult
  | [], _ => none
  | none :: rs, k => findRes rs k
  | some res :: rs, k => if res.index = k then some res else findRes rs k

/-- The indices of the settled (non-`null`) results, in order. -/
def resIndices : List (Option LetResult) → List Nat
  | [] => []
  | none :: rs => resIndices rs
  | some res :: rs => res.index :: resIndices rs

theorem findRes_eq_none_of_not_mem :
    ∀ (rs : List (Option LetResult)) (k : Nat), k ∉ resIndices rs →
      findRes rs k = none
  | [], _, _ => rfl
  | none :: rs, k, h => findRes_eq_none_of_not_mem rs k (by simpa [resIndices] using h)
  | some res :: rs, k, h => by
    simp only [resIndices, List.mem_cons] at h
    push_neg at h
    simp only [findRes, if_neg (Ne.symm h.1)]
    exact findRes_eq_none_of_not_mem rs k h.2

theorem findRes_index :
    ∀ (rs : List (Option LetResult)) (k : Nat) (res : LetResult),
      findRes rs k = some res → res.index = k
  | [], _, _, h => by simp [findRes] at h
  | none :: rs, k, res, h => findRes_index rs k res h
  | some r :: rs, k, res, h => by
    by_cases hik : r.index = k
    · simp only [findRes, if_pos hik] at h
      rw [← Option.some.inj h]
      exact hik
    · simp only [findRes, if_neg hik] at h
      exact findRes_index rs k res h

theorem findRes_mem :
    ∀ (rs : List (Option LetResult)) (k : Nat) (res : LetResult),
      findRes rs k = some res → some res ∈ rs
  | [], _, _, h => by simp [findRes] at h
  | none :: rs, k, res, h =>
    List.mem_cons_of_mem _ (findRes_mem rs k res h)
  | some r :: rs, k, res, h => by
    by_cases hik : r.index = k
    · simp only [findRes, if_pos hik] at h
      rw [← Option.some.inj h]
      exact List.mem_cons_self _ _
    · simp only [findRes, if_neg hik] at h
      exact List.mem_cons_of_mem _ (findRes_mem rs k res h)

theorem mem_resIndices_of_mem :
    ∀ (rs : List (Option LetResult)) (res : LetResult), some res ∈ rs →
      res.index ∈ resIndices rs
  | [], _, h => by simp at h
  | none :: rs, res, h => by
    rcases List.mem_cons.mp h with h1 | h2
    · exact absurd h1 (by simp)
    · exact mem_resIndices_of_mem rs res h2
  | some r :: rs, res, h => by
    rcases List.mem_cons.mp h with h1 | h2
    · rw [Option.some.inj h1]
      exact List.mem_cons_self _ _
    · exact List.mem_cons_of_mem _ (mem_resIndices_of_mem rs res h2)

theorem findRes_of_mem :
    ∀ (rs : List (Option LetResult)) (res : LetResult),
      (resIndices rs).Nodup → some res ∈ rs → findRes rs res.index = some res
  | [], _, _, h => by simp at h
  | none :: rs, res, hnd, h => by
    rcases List.mem_cons.mp h with h1 | h2
    · exact absurd h1 (by simp)
    · exact findRes_of_mem rs res (by simpa [resIndices] using hnd) h2
  | some r :: rs, res, hnd, h => by
    simp only [resIndices, List.nodup_cons] at hnd
    rcases List.mem_cons.mp h with h1 | h2
    · rw [← Option.some.inj h1]
      simp [findRes]
    · have hne : r.index ≠ res.index := by
        intro heq
        exact hnd.1 (heq ▸ mem_resIndices_of_mem rs res h2)
      simp only [findRes, if_neg hne]
      exact findRes_of_mem rs res hnd.2 h2

theorem mergeLettering_elem :
    ∀ (rs : List (Option LetResult)) (pages : List StoryPage) (k : Nat),
      (resIndices rs).Nodup →
      (mergeLettering rs pages)[k]? =
        (match findRes rs k with
         | some res => (pages[k]?).map
             (fun p => { p with lettering := res.lettering, isLettering := false })
         | none => pages[k]?)
  | [], pages, k, _ => by simp [mergeLettering, findRes]
  | none :: rs, pages, k, hnd => by
    have ih := mergeLettering_elem rs pages k (by simpa [resIndices] using hnd)
    simpa [mergeLettering, applyLetResult, findRes, List.foldl_cons] using ih
  | some res :: rs, pages, k, hnd => by
    simp only [resIndices, List.nodup_cons] at hnd
    have hfold : mergeLettering (some res :: rs) pages =
        mergeLettering rs (modifyIdx pages res.index
          (fun p => { p with lettering := res.lettering, isLettering := false })) := rfl
    by_cases hik : res.index = k
    · subst hik
      have hnone : findRes rs res.index = none :=
        findRes_eq_none_of_not_mem rs res.index hnd.1
      have ih := mergeLettering_elem rs (modifyIdx pages res.index
        (fun p => { p with lettering := res.lettering, isLettering := false }))
        res.index hnd.2
      rw [hfold, ih, hnone]
      simp only [findRes, if_pos rfl]
      exact modifyIdx_elem_self _ pages res.index
    · have ih := mergeLettering_elem rs (modifyIdx pages res.index
        (fun p => { p with lettering := res.lettering, isLettering := false })) k hnd.2
      rw [hfold, ih, modifyIdx_elem_ne _ pages res.index k hik]
      simp only [findRes, if_neg hik]

theorem resIndices_eq_filterMap (rs : List (Option LetResult)) :
    resIndices rs = rs.filterMap (fun r => r.map LetResult.index) := by
  induction rs with
  | nil => rfl
  | cons r rs ih => cases r <;> simp [resIndices, ih]

theorem findRes_perm (rs rs' : List (Option LetResult)) (k : Nat)
    (hperm : rs.Perm rs') (hnd : (resIndices rs).Nodup) :
    findRes rs k = findRes rs' k := by
  have hnd' : (resIndices rs').Nodup := by
    rw [resIndices_eq_filterMap] at hnd ⊢
    exact (hperm.filterMap _).nodup hnd
  cases hr : findRes rs k with
  | some res =>
    have hmem : some res ∈ rs' := hperm.mem_iff.mp (findRes_mem rs k res hr)
    have h2 : findRes rs' k = some res := by
      have h3 := findRes_of_mem rs' res hnd' hmem
      rwa [findRes_index rs k res hr] at h3
    rw [h2]
  | none =>
    cases hr' : findRes rs' k with
    | none => rfl
    | some res =>
      have hmem : some res ∈ rs := hperm.mem_iff.mpr (findRes_mem rs' k res hr')
      have h3 := findRes_of_mem rs res hnd hmem
      rw [findRes_index rs' k res hr'] at h3
      simp [h3] at hr

theorem letteringSettle_index (lo : LetOracle) (i : Nat) (p : StoryPage) :
    (letteringSettle lo i p).index = i := by
  unfold letteringSettle
  split <;> rfl

theorem resIndices_promisesGo_ge (lo : LetOracle) :
    ∀ (l : List StoryPage) (n k : Nat),
      k ∈ resIndices (mapIdxGo (fun i p =>
        if letteringEligible p then some (letteringSettle lo i p) else none) n l) →
      n ≤ k
  | [], n, k, h => by simp [mapIdxGo, resIndices] at h
  | p :: l, n, k, h => by
    simp only [mapIdxGo] at h
    by_cases hel : letteringEligible p
    · rw [if_pos hel] at h
      simp only [resIndices, List.mem_cons] at h
      rcases h with h1 | h2
      · rw [h1, letteringSettle_index]
      · have := resIndices_promisesGo_ge lo l (n + 1) k h2
        omega
    · rw [if_neg hel] at h
      simp only [resIndices] at h
      have := resIndices_promisesGo_ge lo l (n + 1) k h
      omega

theorem resIndices_promisesGo_nodup (lo : LetOracle) :
    ∀ (l : List StoryPage) (n : Nat),
      (resIndices (mapIdxGo (fun i p =>
        if letteringEligible p then some (letteringSettle lo i p) else none) n l)).Nodup
  | [], n => by simp [mapIdxGo, resIndices]
  | p :: l, n => by
    simp only [mapIdxGo]
    by_cases hel : letteringEligible p
    · rw [if_pos hel]
      simp only [resIndices, List.nodup_cons]
      refine ⟨?_, resIndices_promisesGo_nodup lo l (n + 1)⟩
      rw [letteringSettle_index]
      intro hmem
      have := resIndices_promisesGo_ge lo l (n + 1) n hmem
      omega
    · rw [if_neg hel]
      simp only [resIndices]
      exact resIndices_promisesGo_nodup lo l (n + 1)

theorem findRes_promisesGo (lo : LetOracle) :
    ∀ (l : List StoryPage) (n k : Nat),
      findRes (mapIdxGo (fun i p =>
        if letteringEligible p then some (letteringSettle lo i p) else none) n l) (n + k) =
        (match l[k]? with
         | some p => if letteringEligible p then some (letteringSettle lo (n + k) p) else none
         | none => none)
  | [], n, k => by simp [mapIdxGo, findRes]
  | p :: l, n, 0 => by
    simp only [mapIdxGo, Nat.add_zero]
    by_cases hel : letteringEligible p
    · rw [if_pos hel]
      simp only [findRes, letteringSettle_index, if_pos rfl]
      simp [hel]
    · rw [if_neg hel]
      simp only [findRes]
      have hnone : findRes (mapIdxGo (fun i p =>
          if letteringEligible p then some (letteringSettle lo i p) else none)
          (n + 1) l) n = none :=
        findRes_eq_none_of_not_mem _ n (fun hmem => by
          have := resIndices_promisesGo_ge lo l (n + 1) n hmem
          omega)
      rw [hnone]
      simp [hel]
  | p :: l, n, k + 1 => by
    simp only [mapIdxGo]
    rw [show n + (k + 1) = (n + 1) + k from by omega]
    have ih := findRes_promisesGo lo l (n + 1) k
    by_cases hel : letteringEligible p
    · rw [if_pos hel]
      simp only [findRes, letteringSettle_index]
      rw [if_neg (by omega), ih]
      simp
    · rw [if_neg hel]
      simp only [findRes]
      rw [ih]
      simp

theorem findRes_letteringPromises (lo : LetOracle) (pages : List StoryPage) (k : Nat) :
    findRes (letteringPromises lo pages) k =
      (match pages[k]? with
       | some p => if letteringEligible p then some (letteringSettle lo k p) else none
       | none => none) := by
  have h := findRes_promisesGo lo pages 0 k
  simpa [letteringPromises, mapIdxL] using h

theorem resIndices_letteringPromises_nodup (lo : LetOracle) (pages : List StoryPage) :
    (resIndices (letteringPromises lo pages)).Nodup :=
  resIndices_promisesGo_nodup lo pages 0

/-- C4 (proved): the parallel lettering merge is order-independent.  For every
panel sequence leaving the image stage and every reordering `rs'` of the
settled lettering results (any completion order of the dispatched calls), each
panel that has a (truthy) image and did not fail ends with exactly the
lettering outcome computed for its own panel (`some` data on success, `none`
when that one call failed) and `isLettering := false`, while panels without an
image or with `generationFailed := true` are left untouched by the merge (in
particular their lettering stays `null`); one call's failure thus affects only
its own panel. -/
theorem mergeLettering_orderIndependent (lo : LetOracle) (pages : List StoryPage)
    (rs' : List (Option LetResult))
    (hperm : (letteringPromises lo pages).Perm rs')
    (k : Nat) (p : StoryPage) (hp : pages[k]? = some p) :
    (mergeLettering rs' pages)[k]? =
      some (if letteringEligible p
            then { p with lettering := (letteringSettle lo k p).lettering,
                          isLettering := false }
            else p) := by
  have hnd := resIndices_letteringPromises_nodup lo pages
  have hnd' : (resIndices rs').Nodup := by
    rw [resIndices_eq_filterMap] at hnd ⊢
    exact (hperm.filterMap _).nodup hnd
  rw [mergeLettering_elem rs' pages k hnd']
  rw [← findRes_perm (letteringPromises lo pages) rs' k hperm hnd]
  rw [findRes_letteringPromises lo pages k, hp]
  by_cases hel : letteringEligible p
  · simp only [if_pos hel, hp]
    rfl
  · simp only [if_neg hel, hp]

/-- Concrete three-panel stage output for the C4 witness: two panels with
images (the second one's lettering call will fail), one failed panel without
an image. -/
def c4Pages : List StoryPage :=
  [{ dfltPage with image := some "img0", isLettering := true },
   { dfltPage with image := some "img1", isLettering := true },
   { dfltPage with image := none, generationFailed := true }]

/-- Lettering backend for the C4 witness: fails exactly on the second image. -/
def c4Oracle : LetOracle := fun img _ _ =>
  if img == "img1" then .error (.plain "lettering failed") else .ok []

/-- Witness for C4: merging the settled results in reverse completion order
still assigns each panel its own outcome: panel 0 gets its lettering list,
panel 1 (whose call failed) gets `none` lettering and no other panel is
affected, panel 2 (no image) is untouched. -/
theorem mergeLettering_orderIndependent_witness :
    (letteringPromises c4Oracle c4Pages).Perm (letteringPromises c4Oracle c4Pages).reverse ∧
    (mergeLettering (letteringPromises c4Oracle c4Pages).reverse c4Pages)[0]? =
      some { dfltPage with image := some "img0", lettering := some [], isLettering := false } ∧
    (mergeLettering (letteringPromises c4Oracle c4Pages).reverse c4Pages)[1]? =
      some { dfltPage with image := some "img1", lettering := none, isLettering := false } ∧
    (mergeLettering (letteringPromises c4Oracle c4Pages).reverse c4Pages)[2]? =
      some { dfltPage with image := none, generationFailed := true } := by
  have hperm : (letteringPromises c4Oracle c4Pages).Perm
      (letteringPromises c4Oracle c4Pages).reverse := (List.reverse_perm _).symm
  refine ⟨hperm, ?_, ?_, ?_⟩
  · rw [mergeLettering_orderIndependent c4Oracle c4Pages _ hperm 0 _ rfl]
    rfl
  · rw [mergeLettering_orderIndependent c4Oracle c4Pages _ hperm 1 _ rfl]
    rfl
  · rw [mergeLettering_orderIndependent c4Oracle c4Pages _ hperm 2 _ rfl]
    rfl

/-! ## `handleEditPanel`: failure behaviour (C7) and frame effect (C9) -/

/-- C7 (amended, proved): when the guided-edit call fails, the error is
surfaced (alerted) to the user, the panel's existing image is left unmutated
and the in-progress flags are cleared — but the panel's lettering, which
`handleEditPanel` cleared to `null` when the edit began, is *not* restored:
it remains `null` on failure.  All other panels are unchanged. -/
theorem handleEditPanel_editFailure (eo : String → String → Except JsError String)
    (lo : LetOracle) (pages : List StoryPage) (pageIndex : Nat) (editPrompt : String)
    (p : StoryPage) (e : JsError)
    (hp : pages[pageIndex]? = some p)
    (himg : jsTruthyStr p.image = true)
    (herr : eo (p.image.getD "") editPrompt = .error e) :
    (handleEditPanel eo lo pages pageIndex editPrompt).2 = some (editAlertText e) ∧
    (handleEditPanel eo lo pages pageIndex editPrompt).1[pageIndex]? =
      some { p with lettering := none, isGenerating := false, isLettering := false } ∧
    (∀ j, j ≠ pageIndex →
      (handleEditPanel eo lo pages pageIndex editPrompt).1[j]? = pages[j]?) := by
  unfold handleEditPanel
  simp only [hp, himg, Bool.not_true, Bool.false_eq_true, if_false, herr]
  refine ⟨by trivial, ?_, fun j hj => ?_⟩
  · rw [mapIdxL_elem, mapIdxL_elem, hp]
    simp
  · rw [mapIdxL_elem, mapIdxL_elem]
    cases pages[j]? <;> simp [hj]

/-- A concrete lettering element for the C7 counterexample. -/
def c7Element : LetteringElement :=
  { id := "el1", type := .dialogue, text := "hi", x := 0, y := 0, width := 10, height := 10, fontWeight := .normal, textAlign := .left, fontFamily := "Inter", fontSize := 2, color := "#000000", fillColor := "#FFFFFF", tail := none }

/-- A one-panel project whose panel has both an image and lettering. -/
def c7Pages : List StoryPage :=
  [{ dfltPage with image := some "imgX", lettering := some [c7Element] }]

/-- C7 counterexample: after a failed edit the panel does *not* equal its
pre-edit state up to in-progress flags — its lettering was `some [c7Element]`
before the edit and is `none` afterwards (the image is preserved and the
error is surfaced, but the claim's "existing lettering left unmutated" is
false on the code). -/
theorem handleEditPanel_failure_counterexample :
    ((handleEditPanel (fun _ _ => .error (.plain "edit failed")) (fun _ _ _ => .ok [])
        c7Pages 0 "make the sky red").1[0]?).map StoryPage.lettering = some none ∧
    (c7Pages[0]?).map StoryPage.lettering = some (some [c7Element]) ∧
    ((handleEditPanel (fun _ _ => .error (.plain "edit failed")) (fun _ _ _ => .ok [])
        c7Pages 0 "make the sky red").1[0]?).map StoryPage.image = some (some "imgX") ∧
    (handleEditPanel (fun _ _ => .error (.plain "edit failed")) (fun _ _ _ => .ok [])
        c7Pages 0 "make the sky red").2 =
      some "An unexpected error occurred: edit failed" := by
  decide

/-- Witness for the amended C7 at the same concrete panel. -/
theorem handleEditPanel_editFailure_witness :
    (handleEditPanel (fun _ _ => .error (.plain "edit failed")) (fun _ _ _ => .ok [])
        c7Pages 0 "make the sky red").2 =
      some (editAlertText (.plain "edit failed")) ∧
    (handleEditPanel (fun _ _ => .error (.plain "edit failed")) (fun _ _ _ => .ok [])
        c7Pages 0 "make the sky red").1[0]? =
      some { dfltPage with image := some "imgX", lettering := none, isGenerating := false, isLettering := false } := by
  have h := handleEditPanel_editFailure (fun _ _ => .error (.plain "edit failed"))
    (fun _ _ _ => .ok []) c7Pages 0 "make the sky red"
    { dfltPage with image := some "imgX", lettering := some [c7Element] }
    (.plain "edit failed") rfl (by decide) rfl
  exact ⟨h.1, h.2.1⟩

/-- The fields of a panel record that `handleEditPanel` must never change:
everything except `image`, `lettering` and the in-progress flags
`isGenerating` / `isLettering`. -/
def agreesOutsideEditable (p q : StoryPage) : Prop :=
  q.page = p.page ∧ q.description = p.description ∧ q.narration = p.narration ∧
  q.dialogue = p.dialogue ∧ q.layout = p.layout ∧ q.sfx = p.sfx ∧
  q.generationFailed = p.generationFailed ∧ q.failureReason = p.failureReason

theorem mapIdxL2_elem_some (f1 f2 : Nat → α → α) (l : List α) (j : Nat) (a : α)
    (h : l[j]? = some a) :
    (mapIdxL f2 (mapIdxL f1 l))[j]? = some (f2 j (f1 j a)) := by
  rw [mapIdxL_elem, mapIdxL_elem, h]
  rfl

theorem mapIdxL3_elem_some (f1 f2 f3 : Nat → α → α) (l : List α) (j : Nat) (a : α)
    (h : l[j]? = some a) :
    (mapIdxL f3 (mapIdxL f2 (mapIdxL f1 l)))[j]? = some (f3 j (f2 j (f1 j a))) := by
  rw [mapIdxL_elem, mapIdxL_elem, mapIdxL_elem, h]
  rfl

/-- C9 (proved): editing a panel's image never alters any panel's
`description`, `narration` or `dialogue` (nor its page number, layout, sfx,
`generationFailed` or `failureReason`): on every path of `handleEditPanel` —
guard miss, edit failure, lettering failure, full success — only `image`,
`lettering`, `isGenerating` and `isLettering` may differ between a panel
record before and after the operation. -/
theorem handleEditPanel_frameEffect (eo : String → String → Except JsError String)
    (lo : LetOracle) (pages : List StoryPage) (pageIndex : Nat) (editPrompt : String)
    (j : Nat) (p : StoryPage) (hp : pages[j]? = some p) :
    ∃ q, (handleEditPanel eo lo pages pageIndex editPrompt).1[j]? = some q ∧
      agreesOutsideEditable p q := by
  unfold handleEditPanel
  cases hyp : pages[pageIndex]? with
  | none =>
    exact ⟨p, by simp [hp], by simp [agreesOutsideEditable]⟩
  | some pt =>
    by_cases himg : jsTruthyStr pt.image
    · simp only [himg, Bool.not_true, Bool.false_eq_true, if_false]
      cases heo : eo (pt.image.getD "") editPrompt with
      | error e =>
        dsimp only
        refine ⟨_, mapIdxL2_elem_some _ _ pages j p hp, ?_⟩
        by_cases hj : j = pageIndex <;> simp [agreesOutsideEditable, hj]
      | ok editedImage =>
        dsimp only
        cases hlo : lo editedImage pt.dialogue pt.narration with
        | error e =>
          dsimp only
          refine ⟨_, mapIdxL3_elem_some _ _ _ pages j p hp, ?_⟩
          by_cases hj : j = pageIndex <;> simp [agreesOutsideEditable, hj]
        | ok letteringData =>
          dsimp only
          refine ⟨_, mapIdxL3_elem_some _ _ _ pages j p hp, ?_⟩
          by_cases hj : j = pageIndex <;> simp [agreesOutsideEditable, hj]
    · simp only [himg]
      exact ⟨p, by simp [hp], by simp [agreesOutsideEditable]⟩

/-- Witness for C9: the panel text survives a successful edit. -/
theorem handleEditPanel_frameEffect_witness :
    ∃ q, (handleEditPanel (fun _ _ => .ok "imgEdited") (fun _ _ _ => .ok [])
        c7Pages 0 "make the sky red").1[0]? = some q ∧
      agreesOutsideEditable { dfltPage with image := some "imgX", lettering := some [c7Element] } q :=
  handleEditPanel_frameEffect (fun _ _ => .ok "imgEdited") (fun _ _ _ => .ok [])
    c7Pages 0 "make the sky red" 0
    { dfltPage with image := some "imgX", lettering := some [c7Element] } rfl

/-! ## `handleRegeneratePanel`: clearing and success (C8) -/

/-- C8 (proved): regenerating a single panel whose record carries
`generationFailed := true` and a stale `failureReason` first publishes the
panel with `generationFailed`, `failureReason`, `image` and `lettering` all
cleared (and `isGenerating := true`) before attempting generation; if both the
image call and the subsequent lettering call succeed, the panel ends with the
new image, the (non-null) lettering list, `isGenerating := false` and
`isLettering := false`, while every other panel is unchanged. -/
theorem handleRegeneratePanel_success (o : ImgOracle) (lo : LetOracle)
    (pages : List StoryPage) (pageIndex : Nat) (p : StoryPage)
    (img : String) (letteringData : List LetteringElement)
    (hp : pages[pageIndex]? = some p)
    (himg : o p.description p.sfx p.layout (prevImage pages pageIndex) = .ok img)
    (hlet : lo img p.dialogue p.narration = .ok letteringData) :
    (regenClearedPages pages pageIndex)[pageIndex]? =
      some { p with isGenerating := true, isLettering := false, image := none, lettering := none, generationFailed := false, failureReason := none } ∧
    (handleRegeneratePanel o lo pages pageIndex)[pageIndex]? =
      some { p with isGenerating := false, isLettering := false, image := some img, lettering := some letteringData, generationFailed := false, failureReason := none } ∧
    (∀ j, j ≠ pageIndex →
      (handleRegeneratePanel o lo pages pageIndex)[j]? = pages[j]?) := by
  have hcleared : (regenClearedPages pages pageIndex)[pageIndex]? =
      some { p with isGenerating := true, isLettering := false, image := none, lettering := none, generationFailed := false, failureReason := none } := by
    unfold regenClearedPages
    rw [mapIdxL_elem, hp]
    simp
  have hmain : handleRegeneratePanel o lo pages pageIndex =
      mapIdxL (fun i q =>
        if i = pageIndex then { q with lettering := some letteringData, isLettering := false }
        else q)
        (mapIdxL (fun i q =>
          if i = pageIndex then { q with image := some img, isGenerating := false, isLettering := true }
          else q) (regenClearedPages pages pageIndex)) := by
    unfold handleRegeneratePanel
    simp only [hp, himg, hlet]
  refine ⟨hcleared, ?_, fun j hj => ?_⟩
  · rw [hmain, mapIdxL_elem, mapIdxL_elem, hcleared]
    simp
  · rw [hmain, mapIdxL_elem, mapIdxL_elem]
    have hc : (regenClearedPages pages pageIndex)[j]? = pages[j]? := by
      unfold regenClearedPages
      rw [mapIdxL_elem]
      cases pages[j]? <;> simp [hj]
    rw [hc]
    cases pages[j]? <;> simp [hj]

/-- Witness for C8: a one-panel project whose panel previously failed with a
stale reason; regeneration clears the failure state first and ends with image
and lettering populated. -/
theorem handleRegeneratePanel_success_witness :
    (regenClearedPages [{ dfltPage with generationFailed := true, failureReason := some "stale", isGenerating := false }] 0)[0]? =
      some { dfltPage with isGenerating := true, isLettering := false, image := none, lettering := none, generationFailed := false, failureReason := none } ∧
    (handleRegeneratePanel (fun _ _ _ _ => .ok "imgNew") (fun _ _ _ => .ok [c7Element])
        [{ dfltPage with generationFailed := true, failureReason := some "stale", isGenerating := false }] 0)[0]? =
      some { dfltPage with isGenerating := false, isLettering := false, image := some "imgNew", lettering := some [c7Element], generationFailed := false, failureReason := none } := by
  have h := handleRegeneratePanel_success (fun _ _ _ _ => .ok "imgNew")
    (fun _ _ _ => .ok [c7Element])
    [{ dfltPage with generationFailed := true, failureReason := some "stale", isGenerating := false }] 0
    { dfltPage with generationFailed := true, failureReason := some "stale", isGenerating := false }
    "imgNew" [c7Element] rfl rfl rfl
  exact ⟨h.1, h.2.1⟩
